import Mathlib

/-
Verification development for the LazyOpenCode discovery and parsing pipeline.

The Python sources are embedded shallowly:
  - services/parsers/__init__.py : parse_frontmatter, read_file_safe
  - services/parsers/command.py  : CommandParser.parse
  - services/discovery.py        : ConfigDiscoveryService (discover_all,
    _discover_level, _discover_commands, _discover_agents, _discover_skills,
    _discover_rules, _discover_mcps, _discover_plugins, refresh)

Python values coming out of yaml.safe_load / json.loads are modelled by the
inductive type PyVal.  Filesystem interaction is modelled by explicit state
(FileState for a single file, FS for the directory layout one discovery pass
touches).  Exceptions are modelled with Except: an uncaught Python exception
is an Except.error value.  Machine strings are Lean String / List Char; the
Python regular expression used by parse_frontmatter is embedded as an
explicit backtracking matcher with the same search order as CPython's re
engine (greedy \s*, lazy group 1, anchored at the start).
-/

set_option maxRecDepth 20000

/-- Python value tree as produced by yaml.safe_load or json.loads (subset:
None, strings, integers, booleans, dicts with string keys, lists). -/
inductive PyVal where
  | none : PyVal
  | str (v : String) : PyVal
  | int (n : Int) : PyVal
  | bool (b : Bool) : PyVal
  | dict (kvs : List (String × PyVal)) : PyVal
  | list (xs : List PyVal) : PyVal

/-- Python truthiness (bool(v)) for the modelled values. -/
def pyTruthy : PyVal → Bool
  | .none => false
  | .str s => !(s == "")
  | .int n => !(n == 0)
  | .bool b => b
  | .dict kvs => !kvs.isEmpty
  | .list xs => !xs.isEmpty

/-- Python `a or b` for the modelled values. -/
def pyOr (v dflt : PyVal) : PyVal := if pyTruthy v then v else dflt

/-- First-match association lookup used to model access to a Python dict
(whose json/yaml sources in this repository never carry duplicate keys). -/
def lookupStr : List (String × PyVal) → String → Option PyVal
  | [], _ => Option.none
  | (k, v) :: rest, key => if k == key then Option.some v else lookupStr rest key

/-- Uncaught Python exception kinds relevant to the embedded code. -/
inductive PyErr where
  | unicodeDecodeError : PyErr
  | attributeError : PyErr
deriving DecidableEq

/-- Python `v.get(key, dflt)`: a dict lookup with default, raising
AttributeError when the receiver is not a dict. -/
def pyGet (v : PyVal) (key : String) (dflt : PyVal) : Except PyErr PyVal :=
  match v with
  | .dict kvs => .ok ((lookupStr kvs key).getD dflt)
  | _ => .error .attributeError

/-- Python str() of a scalar, as interpolated by an f-string (containers are
irrelevant here and rendered approximately). -/
def pyFStr : PyVal → String
  | .str s => s
  | .none => "None"
  | .bool true => "True"
  | .bool false => "False"
  | .int n => toString n
  | .dict _ => "<dict>"
  | .list _ => "<list>"

def dquote : Char := Char.ofNat 34

def squote : Char := Char.ofNat 39

def bslash : Char := Char.ofNat 92

/-- ASCII whitespace as matched by Python's \s and str.strip(). -/
def isPySpace (c : Char) : Bool :=
  c == ' ' || c == '\t' || c == '\n' || c == '\r' || c == Char.ofNat 11 || c == Char.ofNat 12

/-- Python str.strip() on a character list. -/
def pyStrip (l : List Char) : List Char :=
  ((l.dropWhile isPySpace).reverse.dropWhile isPySpace).reverse

/-- Python str.split("\n") on a character list. -/
def splitNl : List Char → List (List Char)
  | [] => [[]]
  | c :: rest =>
    if c == '\n' then [] :: splitNl rest
    else
      match splitNl rest with
      | [] => [[c]]
      | h :: tl => (c :: h) :: tl

/-- Python "\n".join on character-list lines. -/
def joinNl : List (List Char) → List Char
  | [] => []
  | [l] => l
  | l :: rest => l ++ '\n' :: joinNl rest

/-- Index of the first occurrence of needle in hay (Python str.find / `in`). -/
def findSub (needle : List Char) : List Char → Option Nat
  | [] => if List.isPrefixOf needle [] then Option.some 0 else Option.none
  | c :: rest =>
    if List.isPrefixOf needle (c :: rest) then Option.some 0
    else
      match findSub needle rest with
      | Option.some j => Option.some (j + 1)
      | Option.none => Option.none

/-- The closing-delimiter needle "\n---" of the frontmatter pattern. -/
def fmDelim : List Char := ['\n', '-', '-', '-']

/-- One attempt of the frontmatter regex with \s* matching exactly i
characters: requires a newline right after, then finds the first (lazy)
occurrence of "\n---"; everything after it always matches
"\s*\n?(.*)$" and amounts to dropping leading whitespace. -/
def fmTry (rest : List Char) (i : Nat) : Option (List Char × List Char) :=
  if (rest.drop i).head? = Option.some '\n' then
    let t := rest.drop (i + 1)
    match findSub fmDelim t with
    | Option.some j => Option.some (t.take j, (t.drop (j + 4)).dropWhile isPySpace)
    | Option.none => Option.none
  else Option.none

/-- Backtracking over the greedy \s*: try the longest whitespace match
first, shrinking on failure, exactly as CPython's re engine does. -/
def fmBacktrack (rest : List Char) : Nat → Option (List Char × List Char)
  | 0 => fmTry rest 0
  | i + 1 =>
    match fmTry rest (i + 1) with
    | Option.some r => Option.some r
    | Option.none => fmBacktrack rest i

/-- re.match of the pattern r"^---\s*\n(.*?)\n---\s*\n?(.*)$" with re.DOTALL
from parse_frontmatter, returning (group 1, group 2) on success. -/
def matchFMList : List Char → Option (List Char × List Char)
  | '-' :: '-' :: '-' :: rest => fmBacktrack rest (rest.takeWhile isPySpace).length
  | _ => Option.none

/-- String-level wrapper of the frontmatter regex match. -/
def matchFM (content : String) : Option (String × String) :=
  match matchFMList content.data with
  | Option.some (g1, g2) => Option.some (String.mk g1, String.mk g2)
  | Option.none => Option.none

/-- Scalar conversion inside the yaml.safe_load model: quoted values lose
their quotes, the empty value is None. -/
def yamlScalar (v : List Char) : PyVal :=
  match v with
  | [] => PyVal.none
  | c :: rest =>
    if (c == squote || c == dquote) && rest.getLast? = Option.some c then
      .str (String.mk (rest.dropLast))
    else .str (String.mk (c :: rest))

/-- Parse a single "key: value" line of the yaml.safe_load model. -/
def yamlLine (l : List Char) : Option (String × PyVal) :=
  let kpart := l.takeWhile (fun c => !(c == ':'))
  if kpart.length == l.length then Option.none
  else Option.some (String.mk (pyStrip kpart), yamlScalar (pyStrip (l.drop (kpart.length + 1))))

/-- Models yaml.safe_load from PyYAML (an external library) on the YAML
fragment exercised by this repository's frontmatter blocks: the empty or
all-whitespace document is None, flat "key: value" mappings with scalar
values parse to a dict, a single scalar line parses to a string, an
unterminated flow sequence and a multi-document stream raise YAMLError
(modelled as Except.error). -/
def yamlSafeLoad (s : String) : Except String PyVal :=
  let cs := s.data
  let t := pyStrip cs
  if t.isEmpty then .ok PyVal.none
  else if t.head? = Option.some '[' && !(t.contains ']') then
    .error "while scanning a flow node"
  else
    let lines := (splitNl cs).filter (fun l => !(pyStrip l).isEmpty)
    if lines.any (fun l => pyStrip l == ['-', '-', '-']) then
      .error "expected a single document in the stream"
    else
      match lines with
      | [] => .ok PyVal.none
      | [l] =>
        match yamlLine l with
        | Option.some kv => .ok (.dict [kv])
        | Option.none => .ok (.str (String.mk (pyStrip l)))
      | _ =>
        let kvs := lines.map yamlLine
        if kvs.all (fun o => o.isSome) then .ok (.dict (kvs.filterMap id))
        else .error "could not parse"

/-- The frontmatter mapping computed by parse_frontmatter once the pattern
matched group 1: `yaml.safe_load(g1) or {}` with YAMLError giving `{}`. -/
def frontmatterOf (g1 : String) : PyVal :=
  match yamlSafeLoad g1 with
  | .error _ => .dict []
  | .ok v => pyOr v (.dict [])

/-- Embeds parse_frontmatter from services/parsers/__init__.py. -/
def parse_frontmatter (content : String) : PyVal × String :=
  match matchFM content with
  | Option.none => (.dict [], content)
  | Option.some (g1, g2) => (frontmatterOf g1, g2)

/-- Boolean success test for an Except value. -/
def exceptOk {ε α : Type} : Except ε α → Bool
  | .ok _ => true
  | .error _ => false

def slashSlash : List Char := ['/', '/']

/-- One line of the JSONC comment-stripping loop in
ConfigDiscoveryService._discover_mcps: a line whose stripped form starts
with "//" is dropped; otherwise, when "//" occurs and no double quote
occurs before the first "//", the line is truncated at the marker;
otherwise the line is kept verbatim. -/
def stripCommentLine (line : List Char) : Option (List Char) :=
  if List.isPrefixOf slashSlash (pyStrip line) then Option.none
  else
    match findSub slashSlash line with
    | Option.some j =>
      if (line.take j).contains dquote then Option.some line
      else Option.some (line.take j)
    | Option.none => Option.some line

/-- The whole comment-stripping pass of _discover_mcps: split on newlines,
process each line, rejoin with newlines. -/
def stripComments (cs : List Char) : List Char :=
  joinNl ((splitNl cs).filterMap stripCommentLine)

def lbrace : Char := Char.ofNat 123

def rbrace : Char := Char.ofNat 125

/-- JSON whitespace. -/
def jsonWs (c : Char) : Bool := c == ' ' || c == '\t' || c == '\n' || c == '\r'

def skipWs (cs : List Char) : List Char := cs.dropWhile jsonWs

/-- Scan a JSON string body up to the closing quote, decoding the escape
sequences that can occur in this repository's settings files. -/
def parseJString : List Char → Except String (List Char × List Char)
  | [] => .error "Unterminated string"
  | c :: rest =>
    if c == dquote then .ok ([], rest)
    else if c == bslash then
      match rest with
      | [] => .error "Unterminated string"
      | e :: rest2 =>
        let dec : Option Char :=
          if e == 'n' then Option.some '\n'
          else if e == 't' then Option.some '\t'
          else if e == dquote then Option.some dquote
          else if e == bslash then Option.some bslash
          else if e == '/' then Option.some '/' else Option.none
        match dec with
        | Option.some ch =>
          match parseJString rest2 with
          | .ok (s, r) => .ok (ch :: s, r)
          | .error err => .error err
        | Option.none => .error "Invalid escape"
    else
      match parseJString rest with
      | .ok (s, r) => .ok (c :: s, r)
      | .error err => .error err

/-- Scan a JSON integer literal. -/
def parseJNum (cs : List Char) : Except String (PyVal × List Char) :=
  let (neg, cs2) :=
    match cs with
    | c :: r => if c == '-' then (true, r) else (false, cs)
    | [] => (false, cs)
  let digs := cs2.takeWhile (fun c => c.isDigit)
  if digs.isEmpty then .error "Expecting value"
  else
    let n : Nat := digs.foldl (fun acc c => acc * 10 + (c.toNat - 48)) 0
    .ok (.int (if neg then -(n : Int) else (n : Int)), cs2.drop digs.length)

/-- Parser mode: a full value, the members of an object, or the elements of
an array (first = whether the closing bracket may come immediately). -/
inductive JMode where
  | val : JMode
  | members (first : Bool) (acc : List (String × PyVal)) : JMode
  | elems (first : Bool) (acc : List PyVal) : JMode

/-- Recursive-descent core of the json.loads model, fuelled by an upper
bound on the recursion depth.  Inputs are strict JSON: no trailing commas,
data must follow every comma, strings are double-quoted. -/
def jstep : Nat → JMode → List Char → Except String (PyVal × List Char)
  | 0, _, _ => .error "Too deeply nested"
  | Nat.succ fuel, JMode.val, cs =>
    match cs with
    | [] => .error "Expecting value"
    | c :: rest =>
      if c == lbrace then jstep fuel (.members true []) (skipWs rest)
      else if c == '[' then jstep fuel (.elems true []) (skipWs rest)
      else if c == dquote then
        match parseJString rest with
        | .ok (s, r) => .ok (.str (String.mk s), r)
        | .error e => .error e
      else if c == 't' then
        match rest with
        | 'r' :: 'u' :: 'e' :: r => .ok (.bool true, r)
        | _ => .error "Expecting value"
      else if c == 'f' then
        match rest with
        | 'a' :: 'l' :: 's' :: 'e' :: r => .ok (.bool false, r)
        | _ => .error "Expecting value"
      else if c == 'n' then
        match rest with
        | 'u' :: 'l' :: 'l' :: r => .ok (.none, r)
        | _ => .error "Expecting value"
      else parseJNum (c :: rest)
  | Nat.succ fuel, JMode.members first acc, cs =>
    match cs with
    | [] => .error "Unterminated object"
    | c :: rest =>
      if first && c == rbrace then .ok (.dict acc.reverse, rest)
      else if c == dquote then
        match parseJString rest with
        | .error e => .error e
        | .ok (k, r1) =>
          match skipWs r1 with
          | [] => .error "Expecting colon"
          | c2 :: r2 =>
            if c2 == ':' then
              match jstep fuel .val (skipWs r2) with
              | .error e => .error e
              | .ok (v, r3) =>
                match skipWs r3 with
                | [] => .error "Unterminated object"
                | c3 :: r4 =>
                  if c3 == ',' then
                    jstep fuel (.members false ((String.mk k, v) :: acc)) (skipWs r4)
                  else if c3 == rbrace then
                    .ok (.dict ((String.mk k, v) :: acc).reverse, r4)
                  else .error "Expecting delimiter"
            else .error "Expecting colon"
      else .error "Expecting property name"
  | Nat.succ fuel, JMode.elems first acc, cs =>
    match cs with
    | [] => .error "Unterminated array"
    | c :: rest =>
      if first && c == ']' then .ok (.list acc.reverse, rest)
      else
        match jstep fuel .val (c :: rest) with
        | .error e => .error e
        | .ok (v, r1) =>
          match skipWs r1 with
          | [] => .error "Unterminated array"
          | c2 :: r2 =>
            if c2 == ',' then jstep fuel (.elems false (v :: acc)) (skipWs r2)
            else if c2 == ']' then .ok (.list (v :: acc).reverse, r2)
            else .error "Expecting delimiter"

/-- Models json.loads (Python standard library) on the JSON dialect used by
opencode.json settings files: objects, arrays, strings, integers, booleans
and null, strict about everything json.loads is strict about on these
inputs (no comments, no trailing commas, nothing after the document). -/
def json_loads (cs : List Char) : Except String PyVal :=
  match jstep (cs.length + 8) .val (skipWs cs) with
  | .error e => .error e
  | .ok (v, rest) => if (skipWs rest).isEmpty then .ok v else .error "Extra data"

/-- State of a single file as seen by open()/read_text: absent, present but
unreadable (OSError on open/read), present but not valid UTF-8
(UnicodeDecodeError on read), or readable text. -/
inductive FileState where
  | missing : FileState
  | unreadable : FileState
  | undecodable : FileState
  | text (content : String) : FileState
deriving DecidableEq

/-- Customization type enumeration (models/customization.py, spec section 3). -/
inductive CustomizationType where
  | command : CustomizationType
  | agent : CustomizationType
  | skill : CustomizationType
  | rules : CustomizationType
  | mcp : CustomizationType
  | plugin : CustomizationType
deriving DecidableEq

/-- Configuration level enumeration (models/customization.py, spec section 3). -/
inductive ConfigLevel where
  | global : ConfigLevel
  | project : ConfigLevel
deriving DecidableEq

/-- Modelled from the spec: the Customization dataclass of
models/customization.py, which is not part of the sources (only its callers
and tests are).  Fields follow section 3 of the specification: name, type,
level, path, description, metadata mapping, optional content and optional
error, with the optional fields absent by default. -/
structure Customization where
  name : String
  type : CustomizationType
  level : ConfigLevel
  path : String
  description : PyVal
  metadata : PyVal := .dict []
  content : Option String := Option.none
  error : Option String := Option.none

/-- One entry of skills_path.iterdir(): its name, whether it is a directory
and whether it contains a SKILL.md file. -/
structure SkillEntry where
  name : String
  isDir : Bool
  hasSkillMd : Bool

/-- What one level's base directory contains, as observed by discovery:
the stems of command/*.md and agent/*.md in glob order (none when the
directory does not exist), the entries of skill/ in iterdir order, and the
stems of plugin/*.js and plugin/*.ts in glob order. -/
structure LevelFS where
  commandDir : Option (List String) := Option.none
  agentDir : Option (List String) := Option.none
  skillDir : Option (List SkillEntry) := Option.none
  pluginDir : Option (List String × List String) := Option.none

/-- The filesystem state one discovery pass touches: the two level base
directories, the two AGENTS.md files and the two opencode.json files. -/
structure FS where
  globalCfg : LevelFS := {}
  projectCfg : LevelFS := {}
  globalRules : FileState := .missing
  projectRules : FileState := .missing
  globalSettings : FileState := .missing
  projectSettings : FileState := .missing

/-- The constructor arguments of ConfigDiscoveryService: project root and
global config path, kept as plain path strings. -/
structure ServiceConfig where
  project_root : String
  global_config_path : String

namespace ConfigDiscoveryService

/-- The project_config_path property: project_root / ".opencode". -/
def project_config_path (cfg : ServiceConfig) : String :=
  cfg.project_root ++ "/.opencode"

/-- Embeds _discover_commands: one COMMAND record per command/*.md stem,
with the synthesized description and nothing else (the file is not read). -/
def discover_commands (base : String) (dir : Option (List String)) (level : ConfigLevel) :
    List Customization :=
  match dir with
  | Option.none => []
  | Option.some stems =>
    stems.map (fun stem =>
      { name := stem
        type := .command
        level := level
        path := base ++ "/command/" ++ stem ++ ".md"
        description := .str ("Command: " ++ stem) })

/-- Embeds _discover_agents. -/
def discover_agents (base : String) (dir : Option (List String)) (level : ConfigLevel) :
    List Customization :=
  match dir with
  | Option.none => []
  | Option.some stems =>
    stems.map (fun stem =>
      { name := stem
        type := .agent
        level := level
        path := base ++ "/agent/" ++ stem ++ ".md"
        description := .str ("Agent: " ++ stem) })

/-- Embeds _discover_skills: directories under skill/ containing SKILL.md. -/
def discover_skills (base : String) (dir : Option (List SkillEntry)) (level : ConfigLevel) :
    List Customization :=
  match dir with
  | Option.none => []
  | Option.some entries =>
    (entries.filter (fun e => e.isDir && e.hasSkillMd)).map (fun e =>
      { name := e.name
        type := .skill
        level := level
        path := base ++ "/skill/" ++ e.name ++ "/SKILL.md"
        description := .str ("Skill: " ++ e.name) })

/-- Embeds _discover_rules: the AGENTS.md file at the level-appropriate
fixed location, when it exists. -/
def discover_rules (cfg : ServiceConfig) (st : FileState) (level : ConfigLevel) :
    List Customization :=
  let p := (match level with
    | .global => cfg.global_config_path
    | .project => cfg.project_root) ++ "/AGENTS.md"
  if st = .missing then []
  else
    [{ name := "AGENTS.md"
       type := .rules
       level := level
       path := p
       description := .str "Project rules and instructions" }]

/-- The per-entry loop of _discover_mcps: mcp_config.get("type", "unknown")
raises AttributeError on a non-dict entry; otherwise one MCP record is
built with the whole entry object as metadata. -/
def build_mcps (path : String) (level : ConfigLevel) :
    List (String × PyVal) → Except PyErr (List Customization)
  | [] => .ok []
  | (n, cv) :: rest =>
    match pyGet cv "type" (.str "unknown") with
    | .error e => .error e
    | .ok ty =>
      match build_mcps path level rest with
      | .error e => .error e
      | .ok cs =>
        .ok ({ name := n
               type := .mcp
               level := level
               path := path
               description := .str ("MCP (" ++ pyFStr ty ++ ")")
               metadata := cv } :: cs)

/-- Embeds _discover_mcps: missing settings file yields []; OSError on
open/read is caught (yields []); UnicodeDecodeError from f.read() is NOT in
the except clause and escapes; on text, comments are stripped line-wise and
json.loads is attempted, JSONDecodeError being caught (yields []); then
config.get("mcp", dict()) and the per-entry loop run, whose AttributeError
also escapes. -/
def settings_path (cfg : ServiceConfig) : ConfigLevel → String
  | .global => cfg.global_config_path ++ "/opencode.json"
  | .project => cfg.project_root ++ "/opencode.json"

def discover_mcps (cfg : ServiceConfig) (st : FileState) (level : ConfigLevel) :
    Except PyErr (List Customization) :=
  match st with
  | .missing => .ok []
  | .unreadable => .ok []
  | .undecodable => .error .unicodeDecodeError
  | .text content =>
    match json_loads (stripComments content.data) with
    | .error _ => .ok []
    | .ok config =>
      match pyGet config "mcp" (.dict []) with
      | .error e => .error e
      | .ok mcps =>
        match mcps with
        | .dict entries => build_mcps (settings_path cfg level) level entries
        | _ => .error .attributeError

/-- Embeds _discover_plugins: plugin/*.js then plugin/*.ts. -/
def discover_plugins (base : String) (dir : Option (List String × List String))
    (level : ConfigLevel) : List Customization :=
  match dir with
  | Option.none => []
  | Option.some (js, ts) =>
    js.map (fun stem =>
      { name := stem
        type := .plugin
        level := level
        path := base ++ "/plugin/" ++ stem ++ ".js"
        description := .str ("Plugin: " ++ stem) }) ++
    ts.map (fun stem =>
      { name := stem
        type := .plugin
        level := level
        path := base ++ "/plugin/" ++ stem ++ ".ts"
        description := .str ("Plugin: " ++ stem) })

/-- Embeds _discover_level: commands, agents, skills, rules, MCPs, plugins
in that order for one level; an exception escaping _discover_mcps aborts
the level. -/
def discover_level (cfg : ServiceConfig) (fs : FS) (level : ConfigLevel) :
    Except PyErr (List Customization) :=
  let base := match level with
    | .global => cfg.global_config_path
    | .project => project_config_path cfg
  let lfs := match level with
    | .global => fs.globalCfg
    | .project => fs.projectCfg
  let rulesSt := match level with
    | .global => fs.globalRules
    | .project => fs.projectRules
  let settingsSt := match level with
    | .global => fs.globalSettings
    | .project => fs.projectSettings
  match discover_mcps cfg settingsSt level with
  | .error e => .error e
  | .ok mcps =>
    .ok (discover_commands base lfs.commandDir level
      ++ discover_agents base lfs.agentDir level
      ++ discover_skills base lfs.skillDir level
      ++ discover_rules cfg rulesSt level
      ++ mcps
      ++ discover_plugins base lfs.pluginDir level)

/-- The cache-miss body of discover_all: global level then project level. -/
def discover_all_compute (cfg : ServiceConfig) (fs : FS) :
    Except PyErr (List Customization) :=
  match discover_level cfg fs .global with
  | .error e => .error e
  | .ok g =>
    match discover_level cfg fs .project with
    | .error e => .error e
    | .ok p => .ok (g ++ p)

/-- Embeds refresh(): the cache is cleared. -/
def refresh (_cache : Option (List Customization)) : Option (List Customization) :=
  Option.none

/-- Embeds discover_all() including the cache field: a populated cache is
returned as-is without touching the filesystem; an empty cache triggers the
computation, whose result is stored. -/
def discover_all (cfg : ServiceConfig) (fs : FS) :
    Option (List Customization) →
      Except PyErr (List Customization × Option (List Customization))
  | Option.some cached => .ok (cached, Option.some cached)
  | Option.none =>
    match discover_all_compute cfg fs with
    | .error e => .error e
    | .ok r => .ok (r, Option.some r)

end ConfigDiscoveryService

/-- Embeds read_file_safe from services/parsers/__init__.py: OSError and
UnicodeDecodeError are caught and rendered as error strings. -/
def read_file_safe (st : FileState) : Option String × Option String :=
  match st with
  | .text content => (Option.some content, Option.none)
  | .missing => (Option.none, Option.some "Failed to read file: No such file or directory")
  | .unreadable => (Option.none, Option.some "Failed to read file: Permission denied")
  | .undecodable => (Option.none, Option.some "Encoding error: invalid start byte")

/-- Python truthiness of an optional string (`if content and not error`). -/
def optStrTruthy : Option String → Bool
  | Option.some s => !(s == "")
  | Option.none => false

namespace CommandParser

/-- Embeds CommandParser.parse from services/parsers/command.py, with the
file read result supplied through the file state: on truthy content the
frontmatter becomes metadata and its description field (Python `or` with
the synthesized default) becomes the description; frontmatter.get on a
non-dict frontmatter raises AttributeError. -/
def parse (stem path : String) (file : FileState) (level : ConfigLevel) :
    Except PyErr Customization :=
  let (content, error) := read_file_safe file
  if optStrTruthy content && !(optStrTruthy error) then
    let fm := (parse_frontmatter (content.getD "")).1
    match pyGet fm "description" PyVal.none with
    | .error e => .error e
    | .ok desc =>
      .ok { name := stem
            type := .command
            level := level
            path := path
            description := pyOr desc (.str ("Command: " ++ stem))
            metadata := fm
            content := content
            error := error }
  else
    .ok { name := stem
          type := .command
          level := level
          path := path
          description := pyOr PyVal.none (.str ("Command: " ++ stem))
          metadata := .dict []
          content := content
          error := error }

end CommandParser

lemma isPrefixOf_nil_left (xs : List Char) : List.isPrefixOf ([] : List Char) xs = true := by
  cases xs <;> rfl

lemma isPrefixOf_cons (a b : Char) (as bs : List Char) :
    List.isPrefixOf (a :: as) (b :: bs) = (a == b && List.isPrefixOf as bs) := rfl

lemma isPrefixOf_exists (needle hay : List Char) (h : List.isPrefixOf needle hay = true) :
    ∃ t, hay = needle ++ t := by
  induction needle generalizing hay with
  | nil => exact ⟨hay, rfl⟩
  | cons a as ih =>
    cases hay with
    | nil => simp [List.isPrefixOf] at h
    | cons b bs =>
      rw [isPrefixOf_cons] at h
      simp only [Bool.and_eq_true, beq_iff_eq] at h
      obtain ⟨hab, h2⟩ := h
      subst hab
      obtain ⟨t, ht⟩ := ih bs h2
      exact ⟨t, by rw [ht, List.cons_append]⟩

lemma isPrefixOf_append_left (needle xs ys : List Char) (h : needle.length ≤ xs.length) :
    List.isPrefixOf needle (xs ++ ys) = List.isPrefixOf needle xs := by
  induction needle generalizing xs with
  | nil => rw [isPrefixOf_nil_left, isPrefixOf_nil_left]
  | cons a as ih =>
    cases xs with
    | nil => simp at h
    | cons x xs2 =>
      rw [List.cons_append, isPrefixOf_cons, isPrefixOf_cons, ih xs2 (by simpa using h)]

lemma findSub_append (needle xs ys : List Char)
    (h1 : ∀ p, p < xs.length → List.isPrefixOf needle (xs.drop p ++ ys) = false)
    (h2 : List.isPrefixOf needle ys = true) :
    findSub needle (xs ++ ys) = Option.some xs.length := by
  induction xs with
  | nil =>
    cases ys with
    | nil => simp [findSub, h2]
    | cons c r => simp [findSub, h2]
  | cons x xs2 ih =>
    have h0 : List.isPrefixOf needle ((x :: xs2) ++ ys) = false := by
      have h3 := h1 0 (by simp)
      simpa using h3
    have ihr : findSub needle (xs2 ++ ys) = Option.some xs2.length := by
      refine ih (fun p hp => ?_)
      have h4 := h1 (p + 1) (by simpa using Nat.succ_lt_succ hp)
      simpa using h4
    rw [List.cons_append]
    rw [List.cons_append] at h0
    simp [findSub, h0, ihr]

lemma not_prefix_boundary (B tail : List Char) (p : Nat) (hp : p < B.length)
    (h4 : B.length < p + 4) :
    List.isPrefixOf fmDelim (B.drop p ++ ('\n' :: '-' :: '-' :: '-' :: tail)) = false := by
  cases hEq : List.isPrefixOf fmDelim (B.drop p ++ ('\n' :: '-' :: '-' :: '-' :: tail)) with
  | false => rfl
  | true =>
    exfalso
    obtain ⟨t₂, ht⟩ := isPrefixOf_exists _ _ hEq
    have hkl : (B.drop p).length = B.length - p := by simp
    set k := B.length - p with hk
    have hk1 : 1 ≤ k := by omega
    have hk3 : k ≤ 3 := by omega
    have lhs : (B.drop p ++ ('\n' :: '-' :: '-' :: '-' :: tail))[k]? = Option.some '\n' := by
      rw [List.getElem?_append_right (by omega)]
      rw [hkl]
      simp
    have rhs : (fmDelim ++ t₂)[k]? = Option.some '-' := by
      rw [List.getElem?_append_left (by simp [fmDelim]; omega)]
      interval_cases k <;> rfl
    rw [ht] at lhs
    rw [lhs] at rhs
    have hcontra : ('\n' : Char) = '-' := by injection rhs
    exact absurd hcontra (by decide)

lemma fm_core (B tail : List Char) (hne : B ≠ [])
    (hhd : isPySpace (B.headD '-') = false)
    (hno : ∀ p, p < B.length → List.isPrefixOf fmDelim (B.drop p) = false) :
    matchFMList ('-' :: '-' :: '-' :: '\n' :: (B ++ ('\n' :: '-' :: '-' :: '-' :: tail))) =
      Option.some (B, tail.dropWhile isPySpace) := by
  obtain ⟨b, B₂, hB⟩ : ∃ b B₂, B = b :: B₂ := by
    cases B with
    | nil => exact absurd rfl hne
    | cons b B₂ => exact ⟨b, B₂, rfl⟩
  have hb : isPySpace b = false := by rw [hB] at hhd; simpa using hhd
  have hbne : ¬ (b = '\n') := by
    intro h
    rw [h] at hb
    exact absurd hb (by decide)
  have hBX : B ++ ('\n' :: '-' :: '-' :: '-' :: tail) =
      b :: (B₂ ++ ('\n' :: '-' :: '-' :: '-' :: tail)) := by
    rw [hB, List.cons_append]
  have hrun : (('\n' :: (B ++ ('\n' :: '-' :: '-' :: '-' :: tail))).takeWhile
      isPySpace).length = 1 := by
    rw [List.takeWhile_cons_of_pos (by rfl), hBX,
      List.takeWhile_cons_of_neg (by simp [hb])]
    rfl
  have hfind : findSub fmDelim (B ++ ('\n' :: '-' :: '-' :: '-' :: tail)) =
      Option.some B.length := by
    refine findSub_append fmDelim B ('\n' :: '-' :: '-' :: '-' :: tail) ?_ ?_
    · intro p hp
      by_cases hp4 : p + 4 ≤ B.length
      · rw [isPrefixOf_append_left fmDelim (B.drop p) _ (by simp [fmDelim]; omega)]
        exact hno p hp
      · exact not_prefix_boundary B tail p hp (by omega)
    · simp [fmDelim, isPrefixOf_cons, isPrefixOf_nil_left]
  have htry1 : fmTry ('\n' :: (B ++ ('\n' :: '-' :: '-' :: '-' :: tail))) 1 =
      Option.none := by
    simp [fmTry, hBX, hbne]
  have htake : (B ++ ('\n' :: '-' :: '-' :: '-' :: tail)).take B.length = B :=
    List.take_left _ _
  have hdrop : (B ++ ('\n' :: '-' :: '-' :: '-' :: tail)).drop (B.length + 4) = tail := by
    rw [← List.drop_drop, List.drop_left]
    rfl
  have htry0 : fmTry ('\n' :: (B ++ ('\n' :: '-' :: '-' :: '-' :: tail))) 0 =
      Option.some (B, tail.dropWhile isPySpace) := by
    simp only [fmTry, List.drop_zero, List.head?]
    rw [if_pos trivial]
    simp only [List.drop_succ_cons, List.drop_zero]
    rw [hfind]
    simp only [htake, hdrop]
  have hstep : fmBacktrack ('\n' :: (B ++ ('\n' :: '-' :: '-' :: '-' :: tail))) 1 =
      fmTry ('\n' :: (B ++ ('\n' :: '-' :: '-' :: '-' :: tail))) 0 := by
    show fmBacktrack ('\n' :: (B ++ ('\n' :: '-' :: '-' :: '-' :: tail))) (0 + 1) = _
    rw [fmBacktrack]
    rw [show fmTry ('\n' :: (B ++ ('\n' :: '-' :: '-' :: '-' :: tail))) (0 + 1) =
      Option.none from htry1]
    rw [fmBacktrack]
  show fmBacktrack ('\n' :: (B ++ ('\n' :: '-' :: '-' :: '-' :: tail)))
      (('\n' :: (B ++ ('\n' :: '-' :: '-' :: '-' :: tail))).takeWhile isPySpace).length =
      Option.some (B, tail.dropWhile isPySpace)
  rw [hrun, hstep, htry0]

/-- C7 (amended): for every block that is nonempty, does not start with
whitespace and contains no occurrence of the closing delimiter "\n---",
and every body with no leading whitespace, applying the frontmatter
extractor to "---\n" + block + "\n---\n" + body yields exactly
(the structured parse of block, body); and the trailing newline after the
closing delimiter line is optional — both forms match the pattern. -/
theorem C7_roundtrip_amended (block body : String)
    (h1 : block.data ≠ [])
    (h2 : isPySpace (block.data.headD '-') = false)
    (h3 : ∀ p, p < block.data.length → List.isPrefixOf fmDelim (block.data.drop p) = false)
    (h4 : body.data.dropWhile isPySpace = body.data) :
    parse_frontmatter ("---\n" ++ block ++ "\n---\n" ++ body) = (frontmatterOf block, body)
    ∧ (matchFM ("---\n" ++ block ++ "\n---")).isSome = true
    ∧ (matchFM ("---\n" ++ block ++ "\n---\n")).isSome = true := by
  have hd1 : ("---\n" ++ block ++ "\n---\n" ++ body).data
      = '-' :: '-' :: '-' :: '\n' ::
        (block.data ++ ('\n' :: '-' :: '-' :: '-' :: ('\n' :: body.data))) := by
    simp [String.data_append]
  have hdw : ('\n' :: body.data).dropWhile isPySpace = body.data := by
    rw [List.dropWhile_cons_of_pos (by rfl), h4]
  have hm1 : matchFM ("---\n" ++ block ++ "\n---\n" ++ body) = Option.some (block, body) := by
    unfold matchFM
    rw [hd1, fm_core block.data ('\n' :: body.data) h1 h2 h3, hdw]
  refine ⟨?_, ?_, ?_⟩
  · unfold parse_frontmatter
    rw [hm1]
  · have hd2 : ("---\n" ++ block ++ "\n---").data
        = '-' :: '-' :: '-' :: '\n' ::
          (block.data ++ ('\n' :: '-' :: '-' :: '-' :: ([] : List Char))) := by
      simp [String.data_append]
    unfold matchFM
    rw [hd2, fm_core block.data [] h1 h2 h3]
    rfl
  · have hd3 : ("---\n" ++ block ++ "\n---\n").data
        = '-' :: '-' :: '-' :: '\n' ::
          (block.data ++ ('\n' :: '-' :: '-' :: '-' :: (['\n'] : List Char))) := by
      simp [String.data_append]
    unfold matchFM
    rw [hd3, fm_core block.data ['\n'] h1 h2 h3]
    rfl

/-- Witness for C7: the amended theorem applied to block "a: b" and body
"hello". -/
theorem C7_roundtrip_amended_witness :
    parse_frontmatter ("---\n" ++ "a: b" ++ "\n---\n" ++ "hello") =
      (frontmatterOf "a: b", "hello")
    ∧ (matchFM ("---\n" ++ "a: b" ++ "\n---")).isSome = true
    ∧ (matchFM ("---\n" ++ "a: b" ++ "\n---\n")).isSome = true :=
  C7_roundtrip_amended "a: b" "hello" (by decide) (by decide) (by decide) (by decide)

/-- C4 (amended): the frontmatter extractor is a total function (it never
raises); whenever the delimiter pattern does not match it returns
(empty mapping, original full text unchanged); whenever the pattern matches
but the block fails to parse, it returns the empty mapping paired with the
BODY after the closing delimiter — the original text is not preserved in
that case. -/
theorem C4_failure_behavior (s g1 g2 : String) :
    (matchFM s = Option.none → parse_frontmatter s = (.dict [], s))
    ∧ (matchFM s = Option.some (g1, g2) → exceptOk (yamlSafeLoad g1) = false →
        parse_frontmatter s = (.dict [], g2)) := by
  constructor
  · intro h
    unfold parse_frontmatter
    rw [h]
  · intro h he
    unfold parse_frontmatter
    rw [h]
    cases hy : yamlSafeLoad g1 with
    | error e => simp [frontmatterOf, hy]
    | ok v =>
      rw [hy] at he
      simp [exceptOk] at he

/-- Witness for C4: the amended theorem applied to a non-matching text and
to the malformed-block text. -/
theorem C4_failure_behavior_witness :
    parse_frontmatter "plain text" = (.dict [], "plain text")
    ∧ parse_frontmatter "---\n[x\n---\nbody" = (.dict [], "body") :=
  ⟨(C4_failure_behavior "plain text" "" "").1 rfl,
   (C4_failure_behavior "---\n[x\n---\nbody" "[x" "body").2 rfl rfl⟩

/-- C10: for every input text that matches the frontmatter delimiter
pattern and whose block parses to null (e.g. an empty or whitespace-only
block), the extractor returns the empty mapping (never None) paired with
the body. -/
theorem C10_null_block_empty_map (s g1 g2 : String)
    (h : matchFM s = Option.some (g1, g2)) (hy : yamlSafeLoad g1 = .ok PyVal.none) :
    parse_frontmatter s = (.dict [], g2) := by
  unfold parse_frontmatter
  rw [h]
  simp [frontmatterOf, hy, pyOr, pyTruthy]

/-- Witness for C10: a whitespace-only block parses to null and yields the
empty mapping. -/
theorem C10_null_block_empty_map_witness :
    matchFM "---\n \n---\nbody" = Option.some (" ", "body")
    ∧ yamlSafeLoad " " = .ok PyVal.none
    ∧ parse_frontmatter "---\n \n---\nbody" = (.dict [], "body") :=
  ⟨rfl, rfl, C10_null_block_empty_map "---\n \n---\nbody" " " "body" rfl rfl⟩

/-- Segment property: every record of a sub-discovery result carries the
fixed level and type of that sub-discovery. -/
def segOk (cs : List Customization) (lv : ConfigLevel) (ty : CustomizationType) : Prop :=
  ∀ c ∈ cs, c.level = lv ∧ c.type = ty

lemma segOk_commands (base : String) (dir : Option (List String)) (lv : ConfigLevel) :
    segOk (ConfigDiscoveryService.discover_commands base dir lv) lv .command := by
  intro c hc
  cases dir with
  | none => simp [ConfigDiscoveryService.discover_commands] at hc
  | some stems =>
    simp only [ConfigDiscoveryService.discover_commands, List.mem_map] at hc
    obtain ⟨stem, _, rfl⟩ := hc
    exact ⟨rfl, rfl⟩

lemma segOk_agents (base : String) (dir : Option (List String)) (lv : ConfigLevel) :
    segOk (ConfigDiscoveryService.discover_agents base dir lv) lv .agent := by
  intro c hc
  cases dir with
  | none => simp [ConfigDiscoveryService.discover_agents] at hc
  | some stems =>
    simp only [ConfigDiscoveryService.discover_agents, List.mem_map] at hc
    obtain ⟨stem, _, rfl⟩ := hc
    exact ⟨rfl, rfl⟩

lemma segOk_skills (base : String) (dir : Option (List SkillEntry)) (lv : ConfigLevel) :
    segOk (ConfigDiscoveryService.discover_skills base dir lv) lv .skill := by
  intro c hc
  cases dir with
  | none => simp [ConfigDiscoveryService.discover_skills] at hc
  | some entries =>
    simp only [ConfigDiscoveryService.discover_skills, List.mem_map] at hc
    obtain ⟨e, _, rfl⟩ := hc
    exact ⟨rfl, rfl⟩

lemma segOk_rules (cfg : ServiceConfig) (st : FileState) (lv : ConfigLevel) :
    segOk (ConfigDiscoveryService.discover_rules cfg st lv) lv .rules := by
  intro c hc
  unfold ConfigDiscoveryService.discover_rules at hc
  by_cases h : st = FileState.missing
  · simp [h] at hc
  · simp only [if_neg h] at hc
    simp only [List.mem_singleton] at hc
    subst hc
    exact ⟨rfl, rfl⟩

lemma segOk_plugins (base : String) (dir : Option (List String × List String))
    (lv : ConfigLevel) :
    segOk (ConfigDiscoveryService.discover_plugins base dir lv) lv .plugin := by
  intro c hc
  cases dir with
  | none => simp [ConfigDiscoveryService.discover_plugins] at hc
  | some pair =>
    obtain ⟨js, ts⟩ := pair
    simp only [ConfigDiscoveryService.discover_plugins, List.mem_append, List.mem_map] at hc
    rcases hc with ⟨stem, _, rfl⟩ | ⟨stem, _, rfl⟩ <;> exact ⟨rfl, rfl⟩

lemma segOk_build_mcps (path : String) (lv : ConfigLevel)
    (entries : List (String × PyVal)) (m : List Customization)
    (h : ConfigDiscoveryService.build_mcps path lv entries = .ok m) : segOk m lv .mcp := by
  induction entries generalizing m with
  | nil =>
    simp only [ConfigDiscoveryService.build_mcps] at h
    cases h
    intro c hc
    simp at hc
  | cons e rest ih =>
    obtain ⟨n, cv⟩ := e
    simp only [ConfigDiscoveryService.build_mcps] at h
    cases h1 : pyGet cv "type" (.str "unknown") with
    | error e2 => rw [h1] at h; simp at h
    | ok ty =>
      rw [h1] at h
      cases h2 : ConfigDiscoveryService.build_mcps path lv rest with
      | error e2 => rw [h2] at h; simp at h
      | ok cs =>
        rw [h2] at h
        cases h
        intro c hc
        rcases List.mem_cons.mp hc with hc1 | hc2
        · subst hc1; exact ⟨rfl, rfl⟩
        · exact ih cs h2 c hc2

lemma segOk_discover_mcps (cfg : ServiceConfig) (st : FileState) (lv : ConfigLevel)
    (m : List Customization)
    (h : ConfigDiscoveryService.discover_mcps cfg st lv = .ok m) : segOk m lv .mcp := by
  cases st with
  | missing =>
    simp only [ConfigDiscoveryService.discover_mcps] at h
    cases h
    intro c hc
    simp at hc
  | unreadable =>
    simp only [ConfigDiscoveryService.discover_mcps] at h
    cases h
    intro c hc
    simp at hc
  | undecodable => simp [ConfigDiscoveryService.discover_mcps] at h
  | text content =>
    simp only [ConfigDiscoveryService.discover_mcps] at h
    split at h
    · cases h
      intro c hc
      simp at hc
    · split at h
      · simp at h
      · split at h
        · exact segOk_build_mcps _ _ _ _ h
        · simp at h

lemma discover_level_global (cfg : ServiceConfig) (fs : FS) :
    ConfigDiscoveryService.discover_level cfg fs .global =
      match ConfigDiscoveryService.discover_mcps cfg fs.globalSettings .global with
      | .error e => .error e
      | .ok mcps =>
        .ok (ConfigDiscoveryService.discover_commands cfg.global_config_path
              fs.globalCfg.commandDir .global
          ++ ConfigDiscoveryService.discover_agents cfg.global_config_path
              fs.globalCfg.agentDir .global
          ++ ConfigDiscoveryService.discover_skills cfg.global_config_path
              fs.globalCfg.skillDir .global
          ++ ConfigDiscoveryService.discover_rules cfg fs.globalRules .global
          ++ mcps
          ++ ConfigDiscoveryService.discover_plugins cfg.global_config_path
              fs.globalCfg.pluginDir .global) := rfl

lemma discover_level_project (cfg : ServiceConfig) (fs : FS) :
    ConfigDiscoveryService.discover_level cfg fs .project =
      match ConfigDiscoveryService.discover_mcps cfg fs.projectSettings .project with
      | .error e => .error e
      | .ok mcps =>
        .ok (ConfigDiscoveryService.discover_commands
              (ConfigDiscoveryService.project_config_path cfg)
              fs.projectCfg.commandDir .project
          ++ ConfigDiscoveryService.discover_agents
              (ConfigDiscoveryService.project_config_path cfg)
              fs.projectCfg.agentDir .project
          ++ ConfigDiscoveryService.discover_skills
              (ConfigDiscoveryService.project_config_path cfg)
              fs.projectCfg.skillDir .project
          ++ ConfigDiscoveryService.discover_rules cfg fs.projectRules .project
          ++ mcps
          ++ ConfigDiscoveryService.discover_plugins
              (ConfigDiscoveryService.project_config_path cfg)
              fs.projectCfg.pluginDir .project) := rfl

/-- C9: whenever discover_all's computation returns a list, that list is
the global-level results followed by the project-level results, and within
each level the results are the commands, agents, skills, rules, MCPs and
plugins segments in that fixed order, each segment homogeneous in level
and type. -/
theorem C9_discovery_order (cfg : ServiceConfig) (fs : FS) (l : List Customization)
    (h : ConfigDiscoveryService.discover_all_compute cfg fs = .ok l) :
    ∃ gm pm,
      ConfigDiscoveryService.discover_mcps cfg fs.globalSettings .global = .ok gm
      ∧ ConfigDiscoveryService.discover_mcps cfg fs.projectSettings .project = .ok pm
      ∧ l =
        (ConfigDiscoveryService.discover_commands cfg.global_config_path
            fs.globalCfg.commandDir .global
          ++ ConfigDiscoveryService.discover_agents cfg.global_config_path
            fs.globalCfg.agentDir .global
          ++ ConfigDiscoveryService.discover_skills cfg.global_config_path
            fs.globalCfg.skillDir .global
          ++ ConfigDiscoveryService.discover_rules cfg fs.globalRules .global
          ++ gm
          ++ ConfigDiscoveryService.discover_plugins cfg.global_config_path
            fs.globalCfg.pluginDir .global)
        ++ (ConfigDiscoveryService.discover_commands
            (ConfigDiscoveryService.project_config_path cfg) fs.projectCfg.commandDir .project
          ++ ConfigDiscoveryService.discover_agents
            (ConfigDiscoveryService.project_config_path cfg) fs.projectCfg.agentDir .project
          ++ ConfigDiscoveryService.discover_skills
            (ConfigDiscoveryService.project_config_path cfg) fs.projectCfg.skillDir .project
          ++ ConfigDiscoveryService.discover_rules cfg fs.projectRules .project
          ++ pm
          ++ ConfigDiscoveryService.discover_plugins
            (ConfigDiscoveryService.project_config_path cfg) fs.projectCfg.pluginDir .project)
      ∧ segOk (ConfigDiscoveryService.discover_commands cfg.global_config_path
          fs.globalCfg.commandDir .global) .global .command
      ∧ segOk (ConfigDiscoveryService.discover_agents cfg.global_config_path
          fs.globalCfg.agentDir .global) .global .agent
      ∧ segOk (ConfigDiscoveryService.discover_skills cfg.global_config_path
          fs.globalCfg.skillDir .global) .global .skill
      ∧ segOk (ConfigDiscoveryService.discover_rules cfg fs.globalRules .global) .global .rules
      ∧ segOk gm .global .mcp
      ∧ segOk (ConfigDiscoveryService.discover_plugins cfg.global_config_path
          fs.globalCfg.pluginDir .global) .global .plugin
      ∧ segOk (ConfigDiscoveryService.discover_commands
          (ConfigDiscoveryService.project_config_path cfg) fs.projectCfg.commandDir .project)
          .project .command
      ∧ segOk (ConfigDiscoveryService.discover_agents
          (ConfigDiscoveryService.project_config_path cfg) fs.projectCfg.agentDir .project)
          .project .agent
      ∧ segOk (ConfigDiscoveryService.discover_skills
          (ConfigDiscoveryService.project_config_path cfg) fs.projectCfg.skillDir .project)
          .project .skill
      ∧ segOk (ConfigDiscoveryService.discover_rules cfg fs.projectRules .project)
          .project .rules
      ∧ segOk pm .project .mcp
      ∧ segOk (ConfigDiscoveryService.discover_plugins
          (ConfigDiscoveryService.project_config_path cfg) fs.projectCfg.pluginDir .project)
          .project .plugin := by
  unfold ConfigDiscoveryService.discover_all_compute at h
  cases hG : ConfigDiscoveryService.discover_level cfg fs .global with
  | error e => rw [hG] at h; simp at h
  | ok g =>
    rw [hG] at h
    cases hP : ConfigDiscoveryService.discover_level cfg fs .project with
    | error e => rw [hP] at h; simp at h
    | ok p =>
      rw [hP] at h
      simp only [Except.ok.injEq] at h
      rw [discover_level_global] at hG
      rw [discover_level_project] at hP
      cases hgm : ConfigDiscoveryService.discover_mcps cfg fs.globalSettings .global with
      | error e => rw [hgm] at hG; simp at hG
      | ok gm =>
        rw [hgm] at hG
        simp only [Except.ok.injEq] at hG
        cases hpm : ConfigDiscoveryService.discover_mcps cfg fs.projectSettings .project with
        | error e => rw [hpm] at hP; simp at hP
        | ok pm =>
          rw [hpm] at hP
          simp only [Except.ok.injEq] at hP
          refine ⟨gm, pm, rfl, rfl, ?_, segOk_commands _ _ _, segOk_agents _ _ _,
            segOk_skills _ _ _, segOk_rules _ _ _,
            segOk_discover_mcps _ _ _ _ hgm, segOk_plugins _ _ _,
            segOk_commands _ _ _, segOk_agents _ _ _, segOk_skills _ _ _,
            segOk_rules _ _ _, segOk_discover_mcps _ _ _ _ hpm, segOk_plugins _ _ _⟩
          rw [← h, ← hG, ← hP]

/-- C8: the discovery cache follows EMPTY -> discover_all -> POPULATED ->
refresh -> EMPTY.  With a populated cache, discover_all returns the cached
list without consulting the filesystem (the filesystem argument is
arbitrary and unused); refresh clears the cache; a subsequent discover_all
recomputes from the current filesystem state, so later filesystem changes
are reflected. -/
theorem C8_cache_state_machine (cfg : ServiceConfig) (fs fsNew : FS)
    (l : List Customization) :
    ConfigDiscoveryService.discover_all cfg fs (Option.some l) = .ok (l, Option.some l)
    ∧ ConfigDiscoveryService.refresh (Option.some l) = Option.none
    ∧ ConfigDiscoveryService.discover_all cfg fsNew
        (ConfigDiscoveryService.refresh (Option.some l)) =
      (match ConfigDiscoveryService.discover_all_compute cfg fsNew with
       | .error e => .error e
       | .ok r => .ok (r, Option.some r)) :=
  ⟨rfl, rfl, rfl⟩

def cfg0 : ServiceConfig := { project_root := "/proj", global_config_path := "/global" }

def c1_settings : String :=
  "\x7b\"command\":\x7b\"x\":\x7b\"template\":\"hi\",\"description\":\"d\"\x7d\x7d\x7d"

def c1_fs : FS := { globalSettings := .text c1_settings }

/-- C1 (code evaluation at the failing input): for a level whose settings
file is exactly the scenario document, the stripped text parses to the
expected object, yet discover_all's computation returns the empty list —
no COMMAND customization named "x" is produced, because _discover_commands
reads only the command/*.md directory and never the settings file. -/
theorem C1_inline_commands_ignored :
    json_loads (stripComments c1_settings.data) =
      .ok (.dict [("command", .dict [("x",
        .dict [("template", .str "hi"), ("description", .str "d")])])])
    ∧ ConfigDiscoveryService.discover_all_compute cfg0 c1_fs = .ok [] :=
  ⟨rfl, rfl⟩

def c2_fs : FS := { globalRules := .text "Some rules text" }

/-- C2 (code evaluation at the failing input): a readable global AGENTS.md
produces a discovered customization whose content and error are BOTH
absent, because discovery constructs records without reading files —
violating the claimed error-XOR-content invariant. -/
theorem C2_neither_content_nor_error :
    ConfigDiscoveryService.discover_all_compute cfg0 c2_fs =
      .ok [{ name := "AGENTS.md", type := .rules, level := .global,
             path := "/global/AGENTS.md",
             description := .str "Project rules and instructions",
             metadata := .dict [], content := Option.none, error := Option.none }] :=
  rfl

def c3_text : String := "---\ndescription: d\n---\nbody"

def c3_fs : FS := { globalCfg := { commandDir := Option.some ["x"] } }

/-- C3 (code evaluation at the failing input): for a readable command file
with frontmatter description "d", discovery produces the record with the
synthesized description and empty metadata (it never invokes the parser),
while CommandParser.parse on the same file yields the frontmatter-derived
description and the full frontmatter metadata the claim describes. -/
theorem C3_discovery_bypasses_parsers :
    ConfigDiscoveryService.discover_all_compute cfg0 c3_fs =
      .ok [{ name := "x", type := .command, level := .global,
             path := "/global/command/x.md",
             description := .str "Command: x", metadata := .dict [] }]
    ∧ CommandParser.parse "x" "/global/command/x.md" (.text c3_text) .global =
      .ok { name := "x", type := .command, level := .global,
            path := "/global/command/x.md",
            description := .str "d", metadata := .dict [("description", .str "d")],
            content := Option.some c3_text, error := Option.none } :=
  ⟨rfl, rfl⟩

def c5_settings : String :=
  "\x7b\n  \"mcp\": \x7b\n    \"github\": \x7b\n      \"type\": \"remote\",\n      \"url\": \"https://mcp.sentry.dev/mcp\" // This should NOT be stripped\n    \x7d\n  \x7d\n\x7d"

/-- C5 (code evaluation at the failing input): on a settings document whose
url line carries a trailing // comment, the stripping pass keeps the whole
line verbatim (comment included), the stripped document fails json.loads,
and MCP discovery returns the empty list — the url does NOT survive into
any metadata. -/
theorem C5_url_line_comment_breaks_parse :
    stripComments c5_settings.data = c5_settings.data
    ∧ exceptOk (json_loads (stripComments c5_settings.data)) = false
    ∧ ConfigDiscoveryService.discover_mcps cfg0 (.text c5_settings) .global = .ok [] :=
  ⟨rfl, rfl, rfl⟩

/-- C6 (code evaluation at the failing input): missing and unreadable
settings files and malformed JSON all yield the empty list without
raising, but an undecodable settings file raises UnicodeDecodeError (it is
not in the except clause), and the exception aborts the whole discovery
pass including the other customization types of the level. -/
theorem C6_undecodable_settings_raise :
    ConfigDiscoveryService.discover_mcps cfg0 .missing .global = .ok []
    ∧ ConfigDiscoveryService.discover_mcps cfg0 .unreadable .global = .ok []
    ∧ ConfigDiscoveryService.discover_mcps cfg0 (.text "\x7b") .global = .ok []
    ∧ ConfigDiscoveryService.discover_mcps cfg0 .undecodable .global =
        .error .unicodeDecodeError
    ∧ ConfigDiscoveryService.discover_all_compute cfg0
        { globalSettings := .undecodable, globalRules := .text "r" } =
      .error .unicodeDecodeError :=
  ⟨rfl, rfl, rfl, rfl, rfl⟩

/-- C4 counterexample: an input whose delimiter pattern matches but whose
block "[x" is malformed makes the extractor return (empty mapping, "body"),
and "body" differs from the original full text — refuting the claim that
the original text is returned unchanged in the malformed case. -/
theorem C4_malformed_counterexample :
    matchFM "---\n[x\n---\nbody" = Option.some ("[x", "body")
    ∧ exceptOk (yamlSafeLoad "[x") = false
    ∧ parse_frontmatter "---\n[x\n---\nbody" = (.dict [], "body")
    ∧ ("body" : String) ≠ "---\n[x\n---\nbody" :=
  ⟨rfl, rfl, rfl, by decide⟩

/-- C7 counterexample: with block = "a\n---\nb" and body = "c", the
extractor applied to "---\n" + block + "\n---\n" + body returns the body
"b\n---\nc", not "c" — the lazy group stops at the first embedded
delimiter, refuting the unrestricted round-trip claim. -/
theorem C7_roundtrip_counterexample :
    (parse_frontmatter ("---\n" ++ "a\n---\nb" ++ "\n---\n" ++ "c")).2 = "b\n---\nc"
    ∧ ("b\n---\nc" : String) ≠ "c" :=
  ⟨rfl, by decide⟩

def cfg9 : ServiceConfig := { project_root := "/p9", global_config_path := "/g9" }

def fs9 : FS := { globalCfg := { commandDir := Option.some ["a"] } }

def l9 : List Customization :=
  [{ name := "a", type := .command, level := .global, path := "/g9/command/a.md",
     description := .str "Command: a" }]

/-- Witness for C9: the order theorem applied to a concrete filesystem with
one global command. -/
theorem C9_discovery_order_witness :
    ∃ gm pm,
      ConfigDiscoveryService.discover_mcps cfg9 fs9.globalSettings .global = .ok gm
      ∧ ConfigDiscoveryService.discover_mcps cfg9 fs9.projectSettings .project = .ok pm
      ∧ l9 =
        (ConfigDiscoveryService.discover_commands cfg9.global_config_path
            fs9.globalCfg.commandDir .global
          ++ ConfigDiscoveryService.discover_agents cfg9.global_config_path
            fs9.globalCfg.agentDir .global
          ++ ConfigDiscoveryService.discover_skills cfg9.global_config_path
            fs9.globalCfg.skillDir .global
          ++ ConfigDiscoveryService.discover_rules cfg9 fs9.globalRules .global
          ++ gm
          ++ ConfigDiscoveryService.discover_plugins cfg9.global_config_path
            fs9.globalCfg.pluginDir .global)
        ++ (ConfigDiscoveryService.discover_commands
            (ConfigDiscoveryService.project_config_path cfg9) fs9.projectCfg.commandDir .project
          ++ ConfigDiscoveryService.discover_agents
            (ConfigDiscoveryService.project_config_path cfg9) fs9.projectCfg.agentDir .project
          ++ ConfigDiscoveryService.discover_skills
            (ConfigDiscoveryService.project_config_path cfg9) fs9.projectCfg.skillDir .project
          ++ ConfigDiscoveryService.discover_rules cfg9 fs9.projectRules .project
          ++ pm
          ++ ConfigDiscoveryService.discover_plugins
            (ConfigDiscoveryService.project_config_path cfg9) fs9.projectCfg.pluginDir .project)
      ∧ segOk (ConfigDiscoveryService.discover_commands cfg9.global_config_path
          fs9.globalCfg.commandDir .global) .global .command
      ∧ segOk (ConfigDiscoveryService.discover_agents cfg9.global_config_path
          fs9.globalCfg.agentDir .global) .global .agent
      ∧ segOk (ConfigDiscoveryService.discover_skills cfg9.global_config_path
          fs9.globalCfg.skillDir .global) .global .skill
      ∧ segOk (ConfigDiscoveryService.discover_rules cfg9 fs9.globalRules .global) .global .rules
      ∧ segOk gm .global .mcp
      ∧ segOk (ConfigDiscoveryService.discover_plugins cfg9.global_config_path
          fs9.globalCfg.pluginDir .global) .global .plugin
      ∧ segOk (ConfigDiscoveryService.discover_commands
          (ConfigDiscoveryService.project_config_path cfg9) fs9.projectCfg.commandDir .project)
          .project .command
      ∧ segOk (ConfigDiscoveryService.discover_agents
          (ConfigDiscoveryService.project_config_path cfg9) fs9.projectCfg.agentDir .project)
          .project .agent
      ∧ segOk (ConfigDiscoveryService.discover_skills
          (ConfigDiscoveryService.project_config_path cfg9) fs9.projectCfg.skillDir .project)
          .project .skill
      ∧ segOk (ConfigDiscoveryService.discover_rules cfg9 fs9.projectRules .project)
          .project .rules
      ∧ segOk pm .project .mcp
      ∧ segOk (ConfigDiscoveryService.discover_plugins
          (ConfigDiscoveryService.project_config_path cfg9) fs9.projectCfg.pluginDir .project)
          .project .plugin :=
  C9_discovery_order cfg9 fs9 l9 rfl
